import Mathlib

/-!
# RAK4631 LPWAN tracker: payload record, GPS window, uplink loop, battery, display

Shallow embedding of `src/src/main.h`, `src/src/gps.cpp`, `src/src/loraHandler.cpp`,
`src/src/main.cpp`, `src/src/acc.cpp`, `src/src/bat.cpp` and `src/src/display.cpp`.

Conventions
* a `uint8_t` is a `Nat`; every store into one reduces modulo 256;
* signed locals (`int64_t latitude`, `int32_t altitude`) are `Int`; `>>` on them is the
  arithmetic shift `Int.shiftRight` (shift amount in `Nat`), the conversion to `uint8_t` is `% 256`;
* the `int` expressions printed by `sendLoRaFrame` are computed on `Nat` bit patterns and
  read back as 32-bit two's-complement values with `toInt32`;
* `millis()` readings are `Nat`, `time_t` values are `Int`, and `millis() - lastPosSend`
  is the exact integer difference;
* the `float` computations of bat.cpp are carried out on exact rationals;
* the binary semaphore `loopEnable` is a `Bool`: giving it when it is full changes nothing;
* array reads return an `Option`, `none` outside the array.
-/

namespace Tracker

/-! ## main.h -/

/-- The struct `tracker_data_s` of main.h: fourteen `uint8_t` members in declaration order. -/
structure tracker_data_s where
  lat_1 : Nat
  lat_2 : Nat
  lat_3 : Nat
  lat_4 : Nat
  lng_1 : Nat
  lng_2 : Nat
  lng_3 : Nat
  lng_4 : Nat
  alt_1 : Nat
  alt_2 : Nat
  hdop : Nat
  batt : Nat
  sp_1 : Nat
  sp_2 : Nat
  deriving DecidableEq, Repr

/-- The constant `TRACKER_DATA_LEN` of main.h. -/
def TRACKER_DATA_LEN : Nat := 14

/-- The constant `LORAWAN_APP_DATA_BUFF_SIZE` of loraHandler.cpp. -/
def LORAWAN_APP_DATA_BUFF_SIZE : Nat := 64

/-- Conversion of a signed integer to `uint8_t` (reduction modulo 256). -/
def toU8 (x : Int) : Nat := (x % 256).toNat

/-- Reading of a 32-bit pattern as a two's-complement `int`. -/
def toInt32 (n : Nat) : Int :=
  if n % 2 ^ 32 < 2 ^ 31 then ((n % 2 ^ 32 : Nat) : Int) else ((n % 2 ^ 32 : Nat) : Int) - 2 ^ 32

/-! ## gps.cpp: local variables of `pollGPS` and the store into `trackerData` -/

/-- Local variables of `pollGPS` (gps.cpp lines 51-60). -/
structure Acq where
  hasPos : Bool
  hasAlt : Bool
  hasTime : Bool
  hasSpeed : Bool
  hasHdop : Bool
  latitude : Int
  longitude : Int
  altitude : Int
  speed : Nat
  hdop : Nat
  deriving DecidableEq, Repr

/-- Initial values of the locals of `pollGPS` (gps.cpp lines 51-60). -/
def Acq.init : Acq :=
  { hasPos := false, hasAlt := false, hasTime := false, hasSpeed := false, hasHdop := false,
    latitude := 0, longitude := 0, altitude := 0, speed := 0, hdop := 0 }

/-- The assignments of gps.cpp lines 119-135: the locals are written byte by byte into
`trackerData`; `batt` is not assigned there. -/
def storeFix (a : Acq) (d : tracker_data_s) : tracker_data_s :=
  { d with
    lat_1 := toU8 a.latitude
    lat_2 := toU8 (a.latitude >>> (8 : Nat))
    lat_3 := toU8 (a.latitude >>> (16 : Nat))
    lat_4 := toU8 (a.latitude >>> (24 : Nat))
    lng_1 := toU8 a.longitude
    lng_2 := toU8 (a.longitude >>> (8 : Nat))
    lng_3 := toU8 (a.longitude >>> (16 : Nat))
    lng_4 := toU8 (a.longitude >>> (24 : Nat))
    alt_1 := toU8 a.altitude
    alt_2 := toU8 (a.altitude >>> (8 : Nat))
    hdop := a.hdop % 256
    sp_1 := a.speed % 256
    sp_2 := (a.speed >>> 8) % 256 }

/-! ## loraHandler.cpp: the expressions printed by `sendLoRaFrame` and the frame -/

/-- The latitude expression of loraHandler.cpp lines 344 and 353, before the division. -/
def sendLoRaFrame_lat (d : tracker_data_s) : Int :=
  toInt32 (d.lat_1 ||| (d.lat_2 <<< 8) ||| (d.lat_3 <<< 16) ||| (d.lat_4 <<< 24)
    ||| (if d.lat_4 &&& 0x80 ≠ 0 then 0xFF <<< 24 else 0))

/-- The longitude expression of loraHandler.cpp lines 345 and 360, before the division.
The fourth operand is `lng_3 << 24`, as in the source. -/
def sendLoRaFrame_lng (d : tracker_data_s) : Int :=
  toInt32 (d.lng_1 ||| (d.lng_2 <<< 8) ||| (d.lng_3 <<< 16) ||| (d.lng_3 <<< 24)
    ||| (if d.lng_4 &&& 0x80 ≠ 0 then 0xFF <<< 24 else 0))

/-- The altitude expression of loraHandler.cpp lines 346 and 367. -/
def sendLoRaFrame_alt (d : tracker_data_s) : Int :=
  toInt32 (d.alt_1 ||| (d.alt_2 <<< 8) ||| (if d.alt_2 &&& 0x80 ≠ 0 then 0xFF <<< 16 else 0))

/-- Object representation of `trackerData`: its members in declaration order (all members
are `uint8_t`, so there is no padding). -/
def tracker_data_s.bytes (d : tracker_data_s) : List Nat :=
  [d.lat_1, d.lat_2, d.lat_3, d.lat_4, d.lng_1, d.lng_2, d.lng_3, d.lng_4,
   d.alt_1, d.alt_2, d.hdop, d.batt, d.sp_1, d.sp_2]

/-- The call `memcpy(dst, src, n)` on byte lists. -/
def memcpy (dst src : List Nat) (n : Nat) : List Nat :=
  src.take n ++ dst.drop n

/-- The function `sendLoRaFrame` of loraHandler.cpp lines 320-341, up to the call of
`lmh_send`: the new content of `m_lora_app_data_buffer` and the frame handed to
`lmh_send`. When the join status is not set it returns at line 330: the buffer is
unchanged and no frame is sent. Otherwise the frame is the first `buffsize` bytes of the
buffer after the `memcpy`. -/
def sendLoRaFrame (joined : Bool) (buffer : List Nat) (d : tracker_data_s) :
    List Nat × Option (List Nat) :=
  if !joined then (buffer, none)
  else
    let buffer1 := memcpy buffer d.bytes TRACKER_DATA_LEN
    let buffsize := TRACKER_DATA_LEN
    (buffer1, some (buffer1.take buffsize))

/-! ## gps.cpp: the acquisition window of `pollGPS` -/

/-- What the decoder reports for one byte: the result of `myGPS.encode(Serial1.read())`
and of the per-field tests of gps.cpp lines 74, 80, 85 and 90. The numeric members are
the values the assignments of lines 77, 78, 83, 88 and 93 give to the locals (after the
conversion from `double` to the local's integer type). -/
structure GpsEvent where
  encoded : Bool
  locOk : Bool
  lat : Int
  lng : Int
  altOk : Bool
  alt : Int
  speedOk : Bool
  speed : Nat
  hdopOk : Bool
  hdop : Nat
  deriving DecidableEq, Repr

/-- One poll of `Serial1.available()`: the `millis()` reading at that instant and, when a
byte is available, what the decoder reports for it. -/
structure Sample where
  now : Nat
  byte : Option GpsEvent
  deriving DecidableEq, Repr

/-- Body of the inner loop for one byte (gps.cpp lines 71-95): at most one of the four
fields is taken, position first. -/
def onByte (a : Acq) (e : GpsEvent) : Acq :=
  if e.encoded then
    if e.locOk then { a with hasPos := true, latitude := e.lat, longitude := e.lng }
    else if e.altOk then { a with hasAlt := true, altitude := e.alt }
    else if e.speedOk then { a with hasSpeed := true, speed := e.speed }
    else if e.hdopOk then { a with hasHdop := true, hdop := e.hdop }
    else a
  else a

/-- The test of gps.cpp line 97 (it includes `hasTime`, which is never assigned). -/
def innerDone (a : Acq) : Bool :=
  a.hasPos && a.hasAlt && a.hasSpeed && a.hasHdop && a.hasTime

/-- The test of gps.cpp line 102. -/
def outerDone (a : Acq) : Bool :=
  a.hasPos && a.hasAlt && a.hasSpeed && a.hasHdop

/-- The nested loops of gps.cpp lines 66-106, run over the availability polls of the
window. With `inner = false` control is at the test of the outer `while` (line 66), which
reads the clock; with `inner = true` it is at the test of the inner `while` (line 68),
which does not. The result is the locals and the clock reading when the loops are left;
`none` means the loops are still running after the last poll of the list. -/
def pollLoop (timeout : Int) : Bool → Acq → List Sample → Option (Acq × Nat)
  | _, _, [] => none
  | inner, a, s :: rest =>
    if !inner && !decide ((s.now : Int) - timeout < 10000) then some (a, s.now)
    else
      match s.byte with
      | some e =>
        let a1 := onByte a e
        if innerDone a1 then
          if outerDone a1 then some (a1, s.now) else pollLoop timeout false a1 rest
        else pollLoop timeout true a1 rest
      | none =>
        if outerDone a then some (a, s.now) else pollLoop timeout false a rest

/-- The environment of one call of `pollGPS`: the `millis()` reading of line 50, the
availability polls of the window, and the value of `myGPS.location.isValid()` at
line 114. -/
structure GpsFeed where
  start : Nat
  samples : List Sample
  locValid : Bool
  deriving DecidableEq, Repr

/-- What a returned call of `pollGPS` leaves: its return value, `trackerData`, and the
clock when it returns (the `delay(10)` of line 112 included). -/
structure PollResult where
  ret : Bool
  data : tracker_data_s
  finished : Nat
  deriving DecidableEq, Repr

/-- The function `pollGPS` of gps.cpp lines 48-147; `none` when the loops have not been
left within the polls of the feed. The take of `loraEnable` at line 63 is taken to
succeed; the semaphore is given back at line 109 on every path. -/
def pollGPS (f : GpsFeed) (d : tracker_data_s) : Option PollResult :=
  match pollLoop (f.start : Int) false Acq.init f.samples with
  | none => none
  | some (a, t) =>
    some { ret := a.hasPos
           data := if a.hasPos && f.locValid then storeFix a d else d
           finished := t + 10 }

/-- A feed settles when some poll finds no byte and the next poll is stamped at or after
the deadline: the inner loop is then left and the outer test fails. -/
def settles (timeout : Int) : List Sample → Bool
  | s1 :: s2 :: rest =>
    (s1.byte.isNone && !decide ((s2.now : Int) - timeout < 10000)) || settles timeout (s2 :: rest)
  | _ => false

/-! ## main.cpp: the duty-cycle gate and `loop` -/

/-- The period given to `delayedSending.begin` in `setup` (main.cpp line 137). -/
def delayedSendingPeriod : Nat := 10000

/-- The gate test of main.cpp line 198. -/
def gateClear (now : Nat) (lastPosSend : Int) (initMsg : Bool) : Bool :=
  decide ((now : Int) - lastPosSend > 10000) || initMsg

/-- Globals of main.cpp, gps.cpp, acc.cpp and loraHandler.cpp that `loop` reads or writes.
`delayedSending` is the instant at which the one-shot timer fires, when it is running;
`loopEnable` tells whether the binary semaphore holds its token. -/
structure State where
  msgJoined : Bool
  initMsg : Bool
  lastPosSend : Int
  battLevel : Nat
  trackerData : tracker_data_s
  m_lora_app_data_buffer : List Nat
  delayedSending : Option Nat
  loopEnable : Bool
  deriving DecidableEq, Repr

/-- The environment of one pass through `loop`: `lmhJoined()` at line 184, `millis()` at
lines 198 and 206, the GPS window, `readBatt()` at line 225 and the join status read by
`sendLoRaFrame`. -/
structure Wake where
  joined : Bool
  now : Nat
  stamp : Nat
  gps : GpsFeed
  batt : Nat
  joinedAtSend : Bool
  deriving DecidableEq, Repr

/-- Observable steps of one pass through `loop`. -/
inductive Action where
  | announce
  | gpsPoll (ok : Bool)
  | sendFrame (instant : Nat) (frame : Option (List Nat))
  | armRetry (expiry : Nat)
  | notJoined
  deriving DecidableEq, Repr

/-- The function `loop` of main.cpp lines 174-248. `none` when the call of `pollGPS` has
not returned within its feed. Without a token the first `xSemaphoreTake` does not return
`pdTRUE` and nothing is done. The timer is started at the instant of the gate test. -/
def loop (s : State) (w : Wake) : Option (State × List Action) :=
  if !s.loopEnable then some (s, [])
  else
    let s0 := { s with loopEnable := false }
    if w.joined then
      let s1 := if !s0.msgJoined then { s0 with msgJoined := true, initMsg := true } else s0
      let acts1 := if !s0.msgJoined then [Action.announce] else []
      if gateClear w.now s1.lastPosSend s1.initMsg then
        let s2 := { s1 with initMsg := false, lastPosSend := (w.stamp : Int) }
        match pollGPS w.gps s2.trackerData with
        | none => none
        | some r =>
          let d := { r.data with batt := w.batt % 256 }
          let sent := sendLoRaFrame w.joinedAtSend s2.m_lora_app_data_buffer d
          some ({ s2 with battLevel := w.batt % 256, trackerData := d,
                          m_lora_app_data_buffer := sent.1, loopEnable := false },
                acts1 ++ [Action.gpsPoll r.ret, Action.sendFrame r.finished sent.2])
      else
        some ({ s1 with delayedSending := some (w.now + delayedSendingPeriod),
                        loopEnable := false },
              acts1 ++ [Action.armRetry (w.now + delayedSendingPeriod)])
    else some ({ s0 with loopEnable := false }, [Action.notJoined])

/-- Giving the binary semaphore `loopEnable` (acc.cpp line 100, main.cpp lines 151 and 165,
loraHandler.cpp line 313): the token is present afterwards. -/
def post (s : State) : State := { s with loopEnable := true }

/-- The timer callback `sendDelayed` of main.cpp lines 149-152. -/
def sendDelayed (s : State) : State := post s

/-- The timer callback `sendPeriodic` of main.cpp lines 161-167. -/
def sendPeriodic (s : State) (now : Nat) : State :=
  if (now : Int) - s.lastPosSend > 10000 then post s else s

/-- A run of the firmware: every wake of the list is posted and then handled by `loop`;
the actions of the passes are collected in order. -/
def run : State → List Wake → Option (State × List Action)
  | s, [] => some (s, [])
  | s, w :: ws =>
    match loop (post s) w with
    | none => none
    | some (s1, acts) =>
      match run s1 ws with
      | none => none
      | some (s2, acts2) => some (s2, acts ++ acts2)

/-- The instants at which `sendLoRaFrame` is invoked, in order. -/
def sendInstants : List Action → List Nat
  | [] => []
  | Action.sendFrame t _ :: rest => t :: sendInstants rest
  | _ :: rest => sendInstants rest

/-- The globals after `setup`: nothing sent, nothing announced, record and buffer zeroed,
`delayedSending` not started. -/
def boot : State :=
  { msgJoined := false, initMsg := false, lastPosSend := 0, battLevel := 0,
    trackerData := ⟨0, 0, 0, 0, 0, 0, 0, 0, 0, 0, 0, 0, 0, 0⟩,
    m_lora_app_data_buffer := List.replicate LORAWAN_APP_DATA_BUFF_SIZE 0,
    delayedSending := none, loopEnable := false }

/-! ## Concrete inputs used by the evaluation theorems -/

/-- A record whose fourteen bytes are pairwise different. -/
def sampleRecord : tracker_data_s := ⟨1, 2, 3, 4, 5, 6, 7, 8, 9, 10, 11, 12, 13, 14⟩

/-- A byte in the middle of a sentence: `encode` returns false. -/
def midSentence : GpsEvent := ⟨false, false, 0, 0, false, 0, false, 0, false, 0⟩

/-- A byte that completes a sentence with an updated, valid position. -/
def positionEvent (la lo : Int) : GpsEvent :=
  { midSentence with encoded := true, locOk := true, lat := la, lng := lo }

/-- A byte that completes a sentence with an updated, valid altitude only. -/
def altitudeEvent (x : Int) : GpsEvent :=
  { midSentence with encoded := true, altOk := true, alt := x }

/-- A byte that completes a sentence with an updated, valid speed only. -/
def speedEvent (x : Nat) : GpsEvent :=
  { midSentence with encoded := true, speedOk := true, speed := x }

/-- A byte that completes a sentence with an updated, valid hdop only. -/
def hdopEvent (x : Nat) : GpsEvent :=
  { midSentence with encoded := true, hdopOk := true, hdop := x }

/-- A window opened at `t` in which all four fields are seen, the last one `dur` ms
later, after which the port has no byte. -/
def fixFeed (t dur : Nat) : GpsFeed :=
  { start := t
    samples := [⟨t, some (positionEvent 4800000 1100000)⟩, ⟨t + 1, some (altitudeEvent 500)⟩,
                ⟨t + 2, some (speedEvent 3)⟩, ⟨t + dur, some (hdopEvent 1)⟩, ⟨t + dur, none⟩]
    locValid := true }

/-- First wake of the spacing run: the network has just joined (instant 5000). -/
def spacingWake1 : Wake := ⟨true, 5000, 5000, fixFeed 5000 500, 80, true⟩

/-- Second wake of the spacing run, at 15001; its GPS window takes 9000 ms. -/
def spacingWake2 : Wake := ⟨true, 15001, 15001, fixFeed 15001 9000, 80, true⟩

/-- Third wake of the spacing run, at 25002; its GPS window takes 500 ms. -/
def spacingWake3 : Wake := ⟨true, 25002, 25002, fixFeed 25002 500, 80, true⟩

/-- A window in which only a position is seen before the deadline. -/
def positionOnlyFeed : GpsFeed :=
  { start := 0
    samples := [⟨0, some (positionEvent 4800000 1100000)⟩, ⟨5, none⟩, ⟨10000, none⟩]
    locValid := true }

/-- A window opened at 0 whose every poll finds a byte in the middle of a sentence; after
the first poll the clock reads 20000. -/
def floodFeed (n : Nat) : GpsFeed :=
  { start := 0
    samples := ⟨0, some midSentence⟩ :: List.replicate n ⟨20000, some midSentence⟩
    locValid := false }

/-- A joined, announced state whose last send was stamped at 20000. -/
def stampedState : State := { boot with msgJoined := true, lastPosSend := 20000 }

/-- A wake at instant `t` with the network joined and an idle GPS port. -/
def idleWake (t : Nat) : Wake :=
  ⟨true, t, t, ⟨t, [⟨t, none⟩, ⟨t + 10000, none⟩], false⟩, 80, true⟩

/-! ## The retry timer, the join status and the producers of the wake signal -/

/-- The call `delayedSending.stop()` of main.cpp line 235: the timer is not running
afterwards, whether or not it was. -/
def delayedSending_stop (_timer : Option Nat) : Option Nat := none

/-- The call `delayedSending.start()` of main.cpp line 236 at instant `now`: the timer runs
for its whole period from that instant. -/
def delayedSending_start (now : Nat) (_timer : Option Nat) : Option Nat :=
  some (now + delayedSendingPeriod)

/-- The function `lmhJoined` of loraHandler.cpp lines 403-413, on the value returned by
`lmh_join_status_get()`; the library constant `LMH_SET` is a parameter. -/
def lmhJoined (lmh_join_status LMH_SET : Nat) : Bool :=
  if lmh_join_status = LMH_SET then true else false

/-- The interrupt handler `accIntHandler` of acc.cpp lines 98-101. -/
def accIntHandler (s : State) : State := post s

/-- The effect of `lorawan_confirm_class_handler` (loraHandler.cpp lines 301-314) on the
wake signal: the semaphore is given at line 313. -/
def lorawan_confirm_class_handler (s : State) : State := post s

/-- The four producers of the wake signal; the periodic timer carries the `millis()`
reading of its callback. -/
inductive Producer where
  | accInt
  | delayed
  | periodic (now : Nat)
  | classConfirm
  deriving DecidableEq, Repr

/-- The state after a producer has run. -/
def Producer.fire : Producer → State → State
  | Producer.accInt, s => accIntHandler s
  | Producer.delayed, s => sendDelayed s
  | Producer.periodic now, s => sendPeriodic s now
  | Producer.classConfirm, s => lorawan_confirm_class_handler s

/-- Whether a producer gives the semaphore in state `s`: always, except for the periodic
timer, whose callback gives it only when more than 10000 ms have passed since
`lastPosSend`. -/
def Producer.gives (s : State) : Producer → Bool
  | Producer.periodic now => decide ((now : Int) - s.lastPosSend > 10000)
  | _ => true

/-- The state after the producers of a list have run in order. -/
def fireAll (s : State) (ps : List Producer) : State :=
  ps.foldl (fun st p => p.fire st) s

/-- Whether a pass through `loop` handled a wake: every handled pass leaves at least one
action, a pass without a token leaves none. -/
def handled (acts : List Action) : Bool := !acts.isEmpty

/-- Whether `sendLoRaFrame` is invoked among the actions. -/
def sends : List Action → Bool
  | [] => false
  | Action.sendFrame _ _ :: _ => true
  | _ :: rest => sends rest

/-- Whether `pollGPS` is called among the actions. -/
def polls : List Action → Bool
  | [] => false
  | Action.gpsPoll _ :: _ => true
  | _ :: rest => polls rest

/-- The globals at the end of a pass through `loop` that took the send branch with the
token: flags set, `lastPosSend` stamped, the record left by `pollGPS` with the battery
byte, the transmit buffer left by `sendLoRaFrame`, the token gone. -/
def sendPass (s : State) (w : Wake) (r : PollResult) : State :=
  { s with
    msgJoined := true
    initMsg := false
    lastPosSend := (w.stamp : Int)
    battLevel := w.batt % 256
    trackerData := { r.data with batt := w.batt % 256 }
    m_lora_app_data_buffer :=
      (sendLoRaFrame w.joinedAtSend s.m_lora_app_data_buffer
        { r.data with batt := w.batt % 256 }).1
    loopEnable := false }

/-- The two actions of the send branch of `loop` after `pollGPS` has returned `r`. -/
def sendActs (s : State) (w : Wake) (r : PollResult) : List Action :=
  [Action.gpsPoll r.ret,
   Action.sendFrame r.finished
     (sendLoRaFrame w.joinedAtSend s.m_lora_app_data_buffer
       { r.data with batt := w.batt % 256 }).2]

/-- Five wake posts in a row: motion, retry timer, periodic timer (at 90000), class
confirmation, motion. -/
def fivePosts : List Producer :=
  [Producer.accInt, Producer.delayed, Producer.periodic 90000, Producer.classConfirm,
   Producer.accInt]

/-! ## bat.cpp: the battery level, in exact rational arithmetic -/

/-- The constant `VBAT_MV_PER_LSB` of main.h, as the rational 0.73242188. -/
def VBAT_MV_PER_LSB : ℚ := 73242188 / 100000000

/-- The constant `VBAT_DIVIDER_COMP` of main.h, as the rational 1.73. -/
def VBAT_DIVIDER_COMP : ℚ := 173 / 100

/-- The constant `REAL_VBAT_MV_PER_LSB` of main.h. -/
def REAL_VBAT_MV_PER_LSB : ℚ := VBAT_DIVIDER_COMP * VBAT_MV_PER_LSB

/-- The function `readVBAT` of bat.cpp lines 29-40, on the raw reading of `analogRead`. -/
def readVBAT (raw : Nat) : ℚ := (raw : ℚ) * REAL_VBAT_MV_PER_LSB

/-- Conversion of a non-negative rational to `uint8_t`: the fraction is dropped and the
integer is reduced modulo 256. -/
def truncU8 (x : ℚ) : Nat := (Rat.floor x).toNat % 256

/-- The function `mvToPercent` of bat.cpp lines 48-61. -/
def mvToPercent (mvolts : ℚ) : Nat :=
  if mvolts < 3300 then 0
  else if mvolts < 3600 then truncU8 ((mvolts - 3300) / 30)
  else truncU8 (10 + (mvolts - 3600) * (15 / 100))

/-- The function `readBatt` of bat.cpp lines 114-118. -/
def readBatt (raw : Nat) : Nat := mvToPercent (readVBAT raw)

/-! ## display.cpp: the line buffer -/

/-- The constant `OLED_HEIGHT` of main.h. -/
def OLED_HEIGHT : Nat := 64

/-- The constant `STATUS_BAR_HEIGHT` of main.h. -/
def STATUS_BAR_HEIGHT : Nat := 11

/-- The constant `LINE_HEIGHT` of main.h. -/
def LINE_HEIGHT : Nat := 10

/-- The macro `NUM_OF_LINES` of main.h; in each of its four uses in display.cpp the
expansion groups as this quotient. -/
def NUM_OF_LINES : Nat := (OLED_HEIGHT - STATUS_BAR_HEIGHT) / LINE_HEIGHT

/-- The globals `buffer` and `currentLine` of display.cpp lines 18 and 21. A row holds the
bytes of its string, without the terminating zero. -/
structure Display where
  buffer : List (List Nat)
  currentLine : Nat
  deriving DecidableEq, Repr

/-- The globals of display.cpp before the first call: `NUM_OF_LINES + 1` empty rows. -/
def Display.init : Display :=
  { buffer := List.replicate (NUM_OF_LINES + 1) [], currentLine := 0 }

/-- The loop of display.cpp lines 79-82, `steps` iterations from index `idx`: row `idx + 1`
is copied over row `idx`. `none` when a row index is outside the buffer. -/
def shiftLoop : Nat → Nat → List (List Nat) → Option (List (List Nat))
  | 0, _, b => some b
  | steps + 1, idx, b =>
    match b[idx + 1]? with
    | none => none
    | some row =>
      if idx < b.length then shiftLoop steps (idx + 1) (b.set idx row) else none

/-- The function `dispAddLine` of display.cpp lines 73-94; `snprintf` with size 32 keeps
the first 31 bytes of the line. `none` when a row index is outside the buffer. -/
def dispAddLine (d : Display) (line : List Nat) : Option Display :=
  let full := d.currentLine == NUM_OF_LINES
  match (if full then shiftLoop NUM_OF_LINES 0 d.buffer else some d.buffer) with
  | none => none
  | some b1 =>
    let cl1 := if full then d.currentLine - 1 else d.currentLine
    if cl1 < b1.length then
      some { buffer := b1.set cl1 (line.take 31)
             currentLine := if cl1 != NUM_OF_LINES then cl1 + 1 else cl1 }
    else none

/-- The rows `idx`, `idx + 1`, ... read by `steps` iterations of the loop of display.cpp
lines 108-111. -/
def rowsFrom (b : List (List Nat)) : Nat → Nat → Option (List (List Nat))
  | 0, _ => some []
  | steps + 1, idx =>
    match b[idx]?, rowsFrom b steps (idx + 1) with
    | some row, some rest => some (row :: rest)
    | _, _ => none

/-- The lines drawn by `dispShow` (display.cpp lines 100-113): rows 0 to
`currentLine - 1`. -/
def dispShow (d : Display) : Option (List (List Nat)) :=
  rowsFrom d.buffer d.currentLine 0

/-- A sequence of calls of `dispAddLine`. -/
def dispAddLines : Display → List (List Nat) → Option Display
  | d, [] => some d
  | d, line :: rest =>
    match dispAddLine d line with
    | none => none
    | some d1 => dispAddLines d1 rest

/-- A full display showing the five one-byte lines 1 to 5. -/
def fullDisplay : Display :=
  { buffer := [[1], [2], [3], [4], [5], []], currentLine := 5 }

/-! ## loraHandler.cpp: the downlink handler -/

/-- The fields of `lmh_app_data_t` that `lorawan_rx_handler` reads. `buffer` holds the
bytes that exist behind the pointer. -/
structure lmh_app_data_t where
  buffer : List Nat
  buffsize : Nat
  port : Nat
  rssi : Int
  snr : Int
  deriving DecidableEq, Repr

/-- The loop of loraHandler.cpp lines 270-273, `steps` iterations from index `i`: the
bytes `buffer[i]`, `buffer[i + 1]`, ... that are printed. `none` when an index is
outside the bytes of `buffer`. -/
def dumpLoop (buffer : List Nat) : Nat → Nat → Option (List Nat)
  | 0, _ => some []
  | steps + 1, i =>
    match buffer[i]?, dumpLoop buffer steps (i + 1) with
    | some b, some rest => some (b :: rest)
    | _, _ => none

/-- The function `lorawan_rx_handler` of loraHandler.cpp lines 219-294, with the library
constant `LORAWAN_APP_PORT` as a parameter: the bytes it prints to `Serial` in the loop
of lines 270-273 (the loop of lines 281-284 repeats the same reads). The loop condition
`i <= app_data->buffsize` gives `buffsize + 1` iterations. On port 3 and on any other
port nothing is dumped. -/
def lorawan_rx_handler (LORAWAN_APP_PORT : Nat) (app_data : lmh_app_data_t) :
    Option (List Nat) :=
  if app_data.port = 3 then some []
  else if app_data.port = LORAWAN_APP_PORT then
    dumpLoop app_data.buffer (app_data.buffsize + 1) 0
  else some []

/-! ## Deadline polls, ordered clocks and the states the firmware reaches -/

/-- Or-ing a value shifted past the width of the other operand is an addition. -/
theorem or_shiftLeft_eq_add (a b i : Nat) (h : a < 2 ^ i) : a ||| (b <<< i) = a + 2 ^ i * b := by
  rw [Nat.shiftLeft_eq, Nat.or_comm, Nat.mul_comm, ← Nat.mul_add_lt_is_or h]
  omega

/-- Four bytes or-ed at shifts 0, 8, 16 and 24 form their base-256 sum. -/
theorem or4_eq (b0 b1 b2 b3 : Nat) (h0 : b0 < 256) (h1 : b1 < 256) (h2 : b2 < 256) :
    b0 ||| (b1 <<< 8) ||| (b2 <<< 16) ||| (b3 <<< 24)
      = b0 + 256 * b1 + 65536 * b2 + 16777216 * b3 := by
  rw [or_shiftLeft_eq_add b0 b1 8 (by omega)]
  rw [or_shiftLeft_eq_add _ b2 16 (by omega)]
  rw [or_shiftLeft_eq_add _ b3 24 (by omega)]
  omega

/-- Bit 7 of a byte is set exactly when the byte is at least 128. -/
theorem and80 (b : Nat) (h : b < 256) : (b &&& 0x80 ≠ 0) ↔ 128 ≤ b := by
  set_option maxRecDepth 100000 in
  have : ∀ x : Fin 256, (x.val &&& 0x80 ≠ 0) ↔ 128 ≤ x.val := by decide
  exact this ⟨b, h⟩

/-- A `uint8_t` value is below 256. -/
theorem toU8_lt (x : Int) : toU8 x < 256 := by
  unfold toU8; omega

/-- The `uint8_t` conversion is the remainder modulo 256. -/
theorem toU8_cast (x : Int) : ((toU8 x : Nat) : Int) = x % 256 := by
  unfold toU8; omega

/-- A pattern below 2^31 is read as itself. -/
theorem toInt32_of_lt (n : Nat) (h : n < 2147483648) : toInt32 n = (n : Int) := by
  unfold toInt32
  have : n % 2 ^ 32 = n := Nat.mod_eq_of_lt (by omega)
  rw [this, if_pos (by omega)]

/-- A 32-bit pattern from 2^31 on is read as a negative number. -/
theorem toInt32_of_ge (n : Nat) (h : 2147483648 ≤ n) (h2 : n < 4294967296) :
    toInt32 n = (n : Int) - 4294967296 := by
  unfold toInt32
  have : n % 2 ^ 32 = n := Nat.mod_eq_of_lt (by omega)
  rw [this, if_neg (by omega)]
  norm_num


/-- A property of the locals that every byte of the window preserves holds when the loops
are left, if it held when they were entered. -/
theorem pollLoop_preserves (P : Acq → Prop) (timeout : Int) :
    ∀ (samples : List Sample) (inner : Bool) (a : Acq) (r : Acq) (t : Nat),
      (∀ s ∈ samples, ∀ e, s.byte = some e → ∀ x, P x → P (onByte x e)) →
      P a → pollLoop timeout inner a samples = some (r, t) → P r := by
  intro samples
  induction samples with
  | nil => intro inner a r t _ _ h; simp [pollLoop] at h
  | cons s rest ih =>
    intro inner a r t hs ha h
    have hrest : ∀ s ∈ rest, ∀ e, s.byte = some e → ∀ x, P x → P (onByte x e) :=
      fun s1 h1 => hs s1 (List.mem_cons_of_mem _ h1)
    rw [pollLoop] at h
    split at h
    · simp only [Option.some.injEq, Prod.mk.injEq] at h
      exact h.1 ▸ ha
    · split at h
      · rename_i e he
        have ha1 : P (onByte a e) := hs s (List.mem_cons_self _ _) e he a ha
        simp only at h
        split at h
        · split at h
          · simp only [Option.some.injEq, Prod.mk.injEq] at h
            exact h.1 ▸ ha1
          · exact ih false _ r t hrest ha1 h
        · exact ih true _ r t hrest ha1 h
      · split at h
        · simp only [Option.some.injEq, Prod.mk.injEq] at h
          exact h.1 ▸ ha
        · exact ih false _ r t hrest ha h

/-- On a settling window the loops are left, in whichever state they are entered. -/
theorem pollLoop_settles (timeout : Int) :
    ∀ (samples : List Sample) (inner : Bool) (a : Acq),
      settles timeout samples = true → ∃ r, pollLoop timeout inner a samples = some r := by
  intro samples
  induction samples with
  | nil => intro inner a h; simp [settles] at h
  | cons s1 rest ih =>
    intro inner a h
    cases rest with
    | nil => simp [settles] at h
    | cons s2 rest2 =>
      rw [settles, Bool.or_eq_true] at h
      rw [pollLoop]
      split
      · exact ⟨_, rfl⟩
      · split
        · rename_i e he
          have h2 : settles timeout (s2 :: rest2) = true := by
            rcases h with h | h
            · simp [he] at h
            · exact h
          simp only
          split
          · split
            · exact ⟨_, rfl⟩
            · exact ih false _ h2
          · exact ih true _ h2
        · split
          · exact ⟨_, rfl⟩
          · rcases h with h | h
            · rw [Bool.and_eq_true] at h
              refine ⟨(a, s2.now), ?_⟩
              rw [pollLoop]
              simp [h.2]
            · exact ih false _ h


/-! ## Claims C1-C3: the integers read back by `sendLoRaFrame` -/

/-- C1: evaluation of the longitude path at the stored value 65536 (0.65536 degrees east).
The bytes stored by `pollGPS` are `lng_3 = 1`, all others 0, and the expression of
`sendLoRaFrame` reads back 16842752, because its fourth operand is `lng_3 << 24`; the
latitude expression, which uses `lat_4 << 24`, reads the same stored value back as 65536. -/
theorem lng_decode_at_65536 (d : tracker_data_s) :
    sendLoRaFrame_lng (storeFix { Acq.init with longitude := 65536 } d) = 16842752 ∧
    sendLoRaFrame_lat (storeFix { Acq.init with latitude := 65536 } d) = 65536 := by
  constructor
  · change sendLoRaFrame_lng (storeFix { Acq.init with longitude := 65536 } sampleRecord) = _
    decide
  · change sendLoRaFrame_lat (storeFix { Acq.init with latitude := 65536 } sampleRecord) = _
    decide

/-- C2, as stated, fails: the value -16777217 lies in the signed 32-bit range, and the
latitude expression of `sendLoRaFrame` reads its four stored bytes back as -1. -/
theorem lat_roundtrip_counterexample :
    ((-2147483648 : Int) ≤ -16777217 ∧ (-16777217 : Int) ≤ 2147483647) ∧
    sendLoRaFrame_lat (storeFix { Acq.init with latitude := -16777217 } sampleRecord) = -1 ∧
    sendLoRaFrame_lat (storeFix { Acq.init with latitude := -16777217 } sampleRecord)
      ≠ -16777217 := by
  decide

/-- C2, amended: for every latitude value from -16777216 up to 2147483647 (in particular
every value in [-9000000, 9000000], negative or not), the integer that the latitude
expression of `sendLoRaFrame` reads back from the four bytes stored by `pollGPS` is that
value. -/
theorem lat_roundtrip (a : Acq) (d : tracker_data_s)
    (hlo : -16777216 ≤ a.latitude) (hhi : a.latitude < 2147483648) :
    sendLoRaFrame_lat (storeFix a d) = a.latitude := by
  rcases a with ⟨hp, ha, ht, hs, hh, v, lo, al, sp, hd⟩
  simp only [sendLoRaFrame_lat, storeFix] at hlo hhi ⊢
  have e1 : v >>> (8 : Nat) = v / 256 := by rw [Int.shiftRight_eq_div_pow]; norm_num
  have e2 : v >>> (16 : Nat) = v / 65536 := by rw [Int.shiftRight_eq_div_pow]; norm_num
  have e3 : v >>> (24 : Nat) = v / 16777216 := by rw [Int.shiftRight_eq_div_pow]; norm_num
  simp only [e1, e2, e3]
  have c0 := toU8_cast v
  have c1 := toU8_cast (v / 256)
  have c2 := toU8_cast (v / 65536)
  have c3 := toU8_cast (v / 16777216)
  have l0 := toU8_lt v
  have l1 := toU8_lt (v / 256)
  have l2 := toU8_lt (v / 65536)
  have l3 := toU8_lt (v / 16777216)
  by_cases hneg : v < 0
  · have h3 : toU8 (v / 16777216) = 255 := by omega
    simp only [h3]
    rw [if_pos (by decide), Nat.or_assoc, Nat.or_self]
    rw [or4_eq _ _ _ _ l0 l1 l2]
    rw [toInt32_of_ge _ (by omega) (by omega)]
    omega
  · have h3 : toU8 (v / 16777216) < 128 := by omega
    rw [if_neg (by rw [and80 _ l3]; omega)]
    rw [Nat.or_zero, or4_eq _ _ _ _ l0 l1 l2]
    rw [toInt32_of_lt _ (by omega)]
    omega

/-- Witness of `lat_roundtrip` at the latitude -9000000 (90 degrees south). -/
theorem lat_roundtrip_witness :
    ((-16777216 : Int) ≤ -9000000 ∧ (-9000000 : Int) < 2147483648) ∧
    sendLoRaFrame_lat (storeFix { Acq.init with latitude := -9000000 } sampleRecord)
      = -9000000 :=
  ⟨by decide,
   lat_roundtrip { Acq.init with latitude := -9000000 } sampleRecord (by decide) (by decide)⟩

/-- C3: evaluation of the altitude path at negative altitudes. The stored bytes of -1 are
read back as 16777215 and those of -430 as 16776786, because the sign branch of the
expression ors in `0xFF << 16` only; the non-negative altitude 430 is read back as 430. -/
theorem alt_decode_negative (d : tracker_data_s) :
    sendLoRaFrame_alt (storeFix { Acq.init with altitude := -1 } d) = 16777215 ∧
    sendLoRaFrame_alt (storeFix { Acq.init with altitude := -430 } d) = 16776786 ∧
    sendLoRaFrame_alt (storeFix { Acq.init with altitude := 430 } d) = 430 := by
  refine ⟨?_, ?_, ?_⟩
  · change sendLoRaFrame_alt (storeFix { Acq.init with altitude := -1 } sampleRecord) = _
    decide
  · change sendLoRaFrame_alt (storeFix { Acq.init with altitude := -430 } sampleRecord) = _
    decide
  · change sendLoRaFrame_alt (storeFix { Acq.init with altitude := 430 } sampleRecord) = _
    decide

/-! ## Claim C4: the gate -/

/-- C4, as stated, fails: with `initMsg` clear and `lastPosSend = 0` the difference at
instant 10000 is 10000, and the gate test of `loop` is Busy there: the pass sends nothing
and starts the retry timer. -/
theorem gate_busy_at_10000 :
    ((10000 : Nat) : Int) - 0 ≥ 10000 ∧ gateClear 10000 0 false = false ∧
    loop (post { boot with msgJoined := true }) (idleWake 10000)
      = some ({ boot with msgJoined := true, delayedSending := some 20000 },
              [Action.armRetry 20000]) := by
  decide

/-- C4, amended: in a joined, announced pass of `loop` with `initMsg` clear the gate test
is Clear exactly when `now - lastPosSend > 10000`, and the pass takes the Busy branch
(nothing sent, retry timer started) exactly when that fails; with `lastPosSend = 0` the
gate is Busy at 5000 and at 10000 and Clear at 10001 and at every later instant. -/
theorem gate_clear_iff (s : State) (w : Wake)
    (ht : s.loopEnable = true) (hj : s.msgJoined = true) (hi : s.initMsg = false)
    (hw : w.joined = true) :
    (gateClear w.now s.lastPosSend s.initMsg = true ↔ (w.now : Int) - s.lastPosSend > 10000) ∧
    (loop s w = some ({ s with delayedSending := some (w.now + 10000), loopEnable := false },
                      [Action.armRetry (w.now + 10000)])
      ↔ ¬ ((w.now : Int) - s.lastPosSend > 10000)) ∧
    gateClear 5000 0 false = false ∧ gateClear 10000 0 false = false ∧
    ∀ k : Nat, gateClear (10001 + k) 0 false = true := by
  refine ⟨by simp [gateClear, hi], ?_, by decide, by decide, ?_⟩
  · by_cases h : (w.now : Int) - s.lastPosSend > 10000
    · have hg : gateClear w.now s.lastPosSend false = true := by simp [gateClear, h]
      simp only [h, not_true_eq_false, iff_false]
      simp only [loop, ht, hj, hi, hw, hg, Bool.not_true, if_true, if_false,
        Bool.false_eq_true, List.nil_append]
      cases pollGPS w.gps s.trackerData with
      | none => simp
      | some r => simp
    · have hg : gateClear w.now s.lastPosSend false = false := by simp [gateClear, h]
      simp only [h, not_false_eq_true, iff_true]
      simp [loop, ht, hj, hi, hw, hg, delayedSendingPeriod]
  · intro k
    simp only [gateClear, Bool.or_false, decide_eq_true_eq]
    omega

/-- Witness of `gate_clear_iff`: the state stamped at 20000, holding the token, and a wake
at 25000. -/
theorem gate_clear_iff_witness :
    ((post stampedState).loopEnable = true ∧ (post stampedState).msgJoined = true ∧
      (post stampedState).initMsg = false ∧ (idleWake 25000).joined = true) ∧
    ((gateClear (idleWake 25000).now (post stampedState).lastPosSend
        (post stampedState).initMsg = true
      ↔ ((idleWake 25000).now : Int) - (post stampedState).lastPosSend > 10000) ∧
    (loop (post stampedState) (idleWake 25000)
        = some ({ post stampedState with
                    delayedSending := some ((idleWake 25000).now + 10000), loopEnable := false },
                [Action.armRetry ((idleWake 25000).now + 10000)])
      ↔ ¬ (((idleWake 25000).now : Int) - (post stampedState).lastPosSend > 10000)) ∧
    gateClear 5000 0 false = false ∧ gateClear 10000 0 false = false ∧
    ∀ k : Nat, gateClear (10001 + k) 0 false = true) :=
  ⟨by decide, gate_clear_iff (post stampedState) (idleWake 25000) rfl rfl rfl rfl⟩

/-! ## Claim C5: spacing of the sends -/

/-- C5: evaluation of a run of three wakes from `boot`. The join-forced send is invoked
at 5510; the second pass stamps `lastPosSend = 15001`, its GPS window takes 9010 ms and
the send is invoked at 24011; the third wake at 25002 passes the gate
(25002 - 15001 > 10000), its GPS window takes 510 ms and the send is invoked at 25512,
which is 1501 ms after the previous one. -/
theorem send_spacing_run :
    (run boot [spacingWake1, spacingWake2, spacingWake3]).map (fun r => sendInstants r.2)
      = some [5510, 24011, 25512] ∧
    (pollGPS spacingWake2.gps sampleRecord).map (fun r => r.finished - spacingWake2.gps.start)
      = some 9010 ∧
    (pollGPS spacingWake3.gps sampleRecord).map (fun r => r.finished - spacingWake3.gps.start)
      = some 510 ∧
    gateClear spacingWake3.now 15001 false = true ∧
    (25512 : Nat) - 24011 = 1501 := by
  decide

/-! ## Claims C6-C8: the acquisition window -/

/-- C6, as stated, fails: on a window in which only a position is seen, `pollGPS` returns
true and the altitude, speed and hdop bytes, which were 9, 10, 13, 14 and 11, are all 0
afterwards. -/
theorem unobserved_fields_counterexample :
    (pollGPS positionOnlyFeed sampleRecord).map
        (fun r => (r.ret, r.data.alt_1, r.data.alt_2, r.data.sp_1, r.data.sp_2, r.data.hdop))
      = some (true, 0, 0, 0, 0, 0) ∧
    (sampleRecord.alt_1, sampleRecord.alt_2, sampleRecord.sp_1, sampleRecord.sp_2,
      sampleRecord.hdop) = (9, 10, 13, 14, 11) := by
  decide

/-- C6, amended: for every prior record and every settling window after which the location
is valid, `pollGPS` returns, and when it returns true the bytes of a field that was never
reported updated and valid in the window are 0 (the initial value of the local):
`alt_1`, `alt_2` for the altitude, `sp_1`, `sp_2` for the speed, `hdop` for the hdop. -/
theorem unobserved_fields_zero (f : GpsFeed) (d : tracker_data_s)
    (hsettle : settles (f.start : Int) f.samples = true) (hvalid : f.locValid = true) :
    ∃ r, pollGPS f d = some r ∧
      (r.ret = true →
        ((∀ s ∈ f.samples, ∀ e, s.byte = some e → e.altOk = false) →
          r.data.alt_1 = 0 ∧ r.data.alt_2 = 0) ∧
        ((∀ s ∈ f.samples, ∀ e, s.byte = some e → e.speedOk = false) →
          r.data.sp_1 = 0 ∧ r.data.sp_2 = 0) ∧
        ((∀ s ∈ f.samples, ∀ e, s.byte = some e → e.hdopOk = false) →
          r.data.hdop = 0)) := by
  obtain ⟨⟨a, t⟩, hloop⟩ := pollLoop_settles (f.start : Int) f.samples false Acq.init hsettle
  refine ⟨{ ret := a.hasPos
            data := if a.hasPos && f.locValid then storeFix a d else d
            finished := t + 10 }, by simp only [pollGPS, hloop], ?_⟩
  intro hret
  simp only at hret
  simp only [hret, hvalid, Bool.and_self, if_true]
  refine ⟨?_, ?_, ?_⟩
  · intro hno
    have h0 : a.altitude = 0 :=
      pollLoop_preserves (fun x => x.altitude = 0) _ f.samples false Acq.init a t
        (fun s hs e he x hx => by
          have := hno s hs e he
          simp only [onByte, this]
          repeat' split
          all_goals first | exact hx | simp_all)
        rfl hloop
    simp only [storeFix, h0]
    decide
  · intro hno
    have h0 : a.speed = 0 :=
      pollLoop_preserves (fun x => x.speed = 0) _ f.samples false Acq.init a t
        (fun s hs e he x hx => by
          have := hno s hs e he
          simp only [onByte, this]
          repeat' split
          all_goals first | exact hx | simp_all)
        rfl hloop
    simp only [storeFix, h0]
    decide
  · intro hno
    have h0 : a.hdop = 0 :=
      pollLoop_preserves (fun x => x.hdop = 0) _ f.samples false Acq.init a t
        (fun s hs e he x hx => by
          have := hno s hs e he
          simp only [onByte, this]
          repeat' split
          all_goals first | exact hx | simp_all)
        rfl hloop
    simp only [storeFix, h0]

/-- Witness of `unobserved_fields_zero` on the window in which only a position is seen. -/
theorem unobserved_fields_zero_witness :
    (settles (positionOnlyFeed.start : Int) positionOnlyFeed.samples = true ∧
      positionOnlyFeed.locValid = true) ∧
    ∃ r, pollGPS positionOnlyFeed sampleRecord = some r ∧
      (r.ret = true →
        ((∀ s ∈ positionOnlyFeed.samples, ∀ e, s.byte = some e → e.altOk = false) →
          r.data.alt_1 = 0 ∧ r.data.alt_2 = 0) ∧
        ((∀ s ∈ positionOnlyFeed.samples, ∀ e, s.byte = some e → e.speedOk = false) →
          r.data.sp_1 = 0 ∧ r.data.sp_2 = 0) ∧
        ((∀ s ∈ positionOnlyFeed.samples, ∀ e, s.byte = some e → e.hdopOk = false) →
          r.data.hdop = 0)) :=
  ⟨by decide, unobserved_fields_zero positionOnlyFeed sampleRecord (by decide) (by decide)⟩

/-- C8: evaluation on the window whose every poll finds a byte. The outer test is passed
once at clock 0; every later poll is stamped 20000, which is 10000 ms past the deadline,
and still finds a byte that the inner loop reads. Whatever the number `n` of such polls,
`pollGPS` has not returned after them. -/
theorem deadline_not_enforced (n : Nat) (d : tracker_data_s) :
    pollGPS (floodFeed n) d = none := by
  have inner : ∀ m : Nat, pollLoop 0 true Acq.init
      (List.replicate m (⟨20000, some midSentence⟩ : Sample)) = none := by
    intro m
    induction m with
    | zero => rfl
    | succ k ih =>
      rw [List.replicate_succ, pollLoop]
      simpa [onByte, midSentence, innerDone, Acq.init] using ih
  have h := inner n
  simp only [pollGPS, floodFeed, pollLoop]
  simp [onByte, midSentence, innerDone, Acq.init] at h ⊢
  rw [h]

/-! ## Claim C9: the frame -/

/-- C9: for every record (and every prior content of the transmit buffer) the frame that
`sendLoRaFrame` hands to `lmh_send` has length 14 and consists of `lat_1` to `lat_4`,
`lng_1` to `lng_4`, `alt_1`, `alt_2`, `hdop`, `batt`, `sp_1`, `sp_2` in this order; and
on a record stored by `pollGPS` these are the bytes of latitude, longitude, altitude and
speed from the least significant one upwards (byte `k` of `v` is `v / 256 ^ k % 256`). -/
theorem frame_layout (buffer : List Nat) (d : tracker_data_s) (a : Acq) :
    (sendLoRaFrame true buffer d).2
      = some [d.lat_1, d.lat_2, d.lat_3, d.lat_4, d.lng_1, d.lng_2, d.lng_3, d.lng_4,
              d.alt_1, d.alt_2, d.hdop, d.batt, d.sp_1, d.sp_2] ∧
    (sendLoRaFrame true buffer d).2.map List.length = some 14 ∧
    (sendLoRaFrame true buffer (storeFix a d)).2
      = some [(a.latitude % 256).toNat, (a.latitude / 256 % 256).toNat,
              (a.latitude / 65536 % 256).toNat, (a.latitude / 16777216 % 256).toNat,
              (a.longitude % 256).toNat, (a.longitude / 256 % 256).toNat,
              (a.longitude / 65536 % 256).toNat, (a.longitude / 16777216 % 256).toNat,
              (a.altitude % 256).toNat, (a.altitude / 256 % 256).toNat,
              a.hdop % 256, d.batt, a.speed % 256, a.speed / 256 % 256] := by
  have e8 : ∀ v : Int, v >>> (8 : Nat) = v / 256 := fun v => by
    rw [Int.shiftRight_eq_div_pow]; norm_num
  have e16 : ∀ v : Int, v >>> (16 : Nat) = v / 65536 := fun v => by
    rw [Int.shiftRight_eq_div_pow]; norm_num
  have e24 : ∀ v : Int, v >>> (24 : Nat) = v / 16777216 := fun v => by
    rw [Int.shiftRight_eq_div_pow]; norm_num
  have n8 : a.speed >>> 8 = a.speed / 256 := by
    rw [Nat.shiftRight_eq_div_pow]
  refine ⟨rfl, rfl, ?_⟩
  simp only [sendLoRaFrame, memcpy, tracker_data_s.bytes, TRACKER_DATA_LEN, storeFix, toU8,
    e8, e16, e24, n8]
  rfl

/-! ## Auxiliary lemmas on `loop` and the wake signal -/

/-- On a settling window `pollGPS` returns. -/
theorem pollGPS_settles (f : GpsFeed) (d : tracker_data_s)
    (h : settles (f.start : Int) f.samples = true) : ∃ r, pollGPS f d = some r := by
  obtain ⟨⟨a, t⟩, hloop⟩ := pollLoop_settles (f.start : Int) f.samples false Acq.init h
  exact ⟨{ ret := a.hasPos
           data := if a.hasPos && f.locValid then storeFix a d else d
           finished := t + 10 }, by simp only [pollGPS, hloop]⟩

/-- A pass without the token does nothing. -/
theorem loop_eq_no_token (s : State) (w : Wake) (ht : s.loopEnable = false) :
    loop s w = some (s, []) := by
  simp [loop, ht]

/-- A pass with the token while the network is not joined only drops the token. -/
theorem loop_eq_not_joined (s : State) (w : Wake) (ht : s.loopEnable = true)
    (hw : w.joined = false) :
    loop s w = some ({ s with loopEnable := false }, [Action.notJoined]) := by
  simp [loop, ht, hw]

/-- A joined, announced pass with the token and a Busy gate starts the retry timer. -/
theorem loop_eq_busy (s : State) (w : Wake) (ht : s.loopEnable = true)
    (hw : w.joined = true) (hj : s.msgJoined = true)
    (hb : gateClear w.now s.lastPosSend s.initMsg = false) :
    loop s w = some ({ s with delayedSending := some (w.now + 10000), loopEnable := false },
                     [Action.armRetry (w.now + 10000)]) := by
  simp [loop, ht, hw, hj, hb, delayedSendingPeriod]

/-- A joined, announced pass with the token and a Clear gate polls the GPS and sends. -/
theorem loop_eq_clear (s : State) (w : Wake) (ht : s.loopEnable = true)
    (hw : w.joined = true) (hj : s.msgJoined = true)
    (hg : gateClear w.now s.lastPosSend s.initMsg = true) :
    loop s w = (pollGPS w.gps s.trackerData).map
      (fun r => (sendPass s w r, sendActs s w r)) := by
  simp only [loop, ht, hw, hj, hg, Bool.not_true, if_true, if_false, Bool.false_eq_true,
    List.nil_append]
  cases pollGPS w.gps s.trackerData with
  | none => rfl
  | some r => simp [sendPass, sendActs, hj]

/-- The first joined pass with the token announces the join, polls the GPS and sends,
whatever the gate inputs. -/
theorem loop_eq_first (s : State) (w : Wake) (ht : s.loopEnable = true)
    (hw : w.joined = true) (hj : s.msgJoined = false) :
    loop s w = (pollGPS w.gps s.trackerData).map
      (fun r => (sendPass s w r, Action.announce :: sendActs s w r)) := by
  simp only [loop, ht, hw, hj, gateClear, Bool.or_true, Bool.not_true, Bool.not_false,
    if_true, if_false, Bool.false_eq_true]
  cases pollGPS w.gps s.trackerData with
  | none => rfl
  | some r => simp [sendPass, sendActs]

/-- A pass through `loop` whose GPS window settles returns. -/
theorem loop_settles (s : State) (w : Wake)
    (h : settles (w.gps.start : Int) w.gps.samples = true) : ∃ r, loop s w = some r := by
  obtain ⟨r, hr⟩ := pollGPS_settles w.gps s.trackerData h
  cases ht : s.loopEnable with
  | false => exact ⟨_, loop_eq_no_token s w ht⟩
  | true =>
    cases hw : w.joined with
    | false => exact ⟨_, loop_eq_not_joined s w ht hw⟩
    | true =>
      cases hj : s.msgJoined with
      | false => exact ⟨_, by rw [loop_eq_first s w ht hw hj, hr]; rfl⟩
      | true =>
        cases hg : gateClear w.now s.lastPosSend s.initMsg with
        | false => exact ⟨_, loop_eq_busy s w ht hw hj hg⟩
        | true => exact ⟨_, by rw [loop_eq_clear s w ht hw hj hg, hr]; rfl⟩

/-- A pass that starts with the token handles the wake and ends without the token; a pass
that starts without it changes nothing. -/
theorem loop_token (s : State) (w : Wake) (s1 : State) (acts : List Action)
    (h : loop s w = some (s1, acts)) :
    (s.loopEnable = true → handled acts = true ∧ s1.loopEnable = false) ∧
    (s.loopEnable = false → s1 = s ∧ acts = []) := by
  cases ht : s.loopEnable with
  | false =>
    rw [loop_eq_no_token s w ht] at h
    simp only [Option.some.injEq, Prod.mk.injEq] at h
    exact ⟨fun h1 => by simp at h1, fun _ => ⟨h.1.symm, h.2.symm⟩⟩
  | true =>
    refine ⟨fun _ => ?_, fun h1 => by simp at h1⟩
    cases hw : w.joined with
    | false =>
      rw [loop_eq_not_joined s w ht hw] at h
      simp only [Option.some.injEq, Prod.mk.injEq] at h
      obtain ⟨h1, h2⟩ := h
      subst h1 h2
      simp [handled]
    | true =>
      cases hj : s.msgJoined with
      | false =>
        rw [loop_eq_first s w ht hw hj] at h
        cases hp : pollGPS w.gps s.trackerData with
        | none => simp [hp] at h
        | some r =>
          simp only [hp, Option.map_some', Option.some.injEq, Prod.mk.injEq] at h
          obtain ⟨h1, h2⟩ := h
          subst h1 h2
          simp [handled, sendPass]
      | true =>
        cases hg : gateClear w.now s.lastPosSend s.initMsg with
        | false =>
          rw [loop_eq_busy s w ht hw hj hg] at h
          simp only [Option.some.injEq, Prod.mk.injEq] at h
          obtain ⟨h1, h2⟩ := h
          subst h1 h2
          simp [handled]
        | true =>
          rw [loop_eq_clear s w ht hw hj hg] at h
          cases hp : pollGPS w.gps s.trackerData with
          | none => simp [hp] at h
          | some r =>
            simp only [hp, Option.map_some', Option.some.injEq, Prod.mk.injEq] at h
            obtain ⟨h1, h2⟩ := h
            subst h1 h2
            simp [handled, sendPass, sendActs]

/-- The producers change nothing but the token, which is present afterwards when it was
present before or when one of them gives it. -/
theorem fireAll_eq (ps : List Producer) (s : State) :
    fireAll s ps = { s with loopEnable := s.loopEnable || ps.any (fun p => p.gives s) } := by
  induction ps generalizing s with
  | nil => simp [fireAll]
  | cons p rest ih =>
    have hstep : fireAll s (p :: rest) = fireAll (p.fire s) rest := rfl
    rw [hstep, ih]
    cases p with
    | accInt => simp [Producer.fire, accIntHandler, post, Producer.gives]
    | delayed => simp [Producer.fire, sendDelayed, post, Producer.gives]
    | classConfirm => simp [Producer.fire, lorawan_confirm_class_handler, post, Producer.gives]
    | periodic now =>
      by_cases hc : (now : Int) - s.lastPosSend > 10000
      · simp [Producer.fire, sendPeriodic, post, Producer.gives, hc]
      · simp [Producer.fire, sendPeriodic, Producer.gives, hc]

/-! ## Claim C11: the Busy pass -/

/-- C11: in every state in which the token is held, the network is joined, the join was
announced and the gate test is Busy, one pass through `loop` calls neither `pollGPS` nor
`sendLoRaFrame`, leaves `lastPosSend`, `msgJoined`, `initMsg` and `trackerData` as they were,
and leaves the retry timer stopped and started again: whatever its state before, it runs
for its whole 10000 ms from the instant of the pass, so a single expiry is outstanding. -/
theorem busy_step (s : State) (w : Wake)
    (ht : s.loopEnable = true) (hw : w.joined = true) (hj : s.msgJoined = true)
    (hb : gateClear w.now s.lastPosSend s.initMsg = false) :
    ∃ s1 acts, loop s w = some (s1, acts) ∧
      acts = [Action.armRetry (w.now + 10000)] ∧ polls acts = false ∧ sends acts = false ∧
      s1.lastPosSend = s.lastPosSend ∧ s1.msgJoined = s.msgJoined ∧
      s1.initMsg = s.initMsg ∧ s1.trackerData = s.trackerData ∧
      s1.delayedSending = delayedSending_start w.now (delayedSending_stop s.delayedSending) ∧
      s1.delayedSending = some (w.now + 10000) := by
  exact ⟨{ s with delayedSending := some (w.now + 10000), loopEnable := false },
    [Action.armRetry (w.now + 10000)], loop_eq_busy s w ht hw hj hb,
    rfl, rfl, rfl, rfl, rfl, rfl, rfl, rfl, rfl⟩

/-- Witness of `busy_step`: the state stamped at 20000 with the timer already running,
and a wake at 25000. -/
theorem busy_step_witness :
    ((post { stampedState with delayedSending := some 27000 }).loopEnable = true ∧
      (idleWake 25000).joined = true ∧
      (post { stampedState with delayedSending := some 27000 }).msgJoined = true ∧
      gateClear (idleWake 25000).now
        (post { stampedState with delayedSending := some 27000 }).lastPosSend
        (post { stampedState with delayedSending := some 27000 }).initMsg = false) ∧
    ∃ s1 acts,
      loop (post { stampedState with delayedSending := some 27000 }) (idleWake 25000)
        = some (s1, acts) ∧
      acts = [Action.armRetry ((idleWake 25000).now + 10000)] ∧
      polls acts = false ∧ sends acts = false ∧
      s1.lastPosSend = (post { stampedState with delayedSending := some 27000 }).lastPosSend ∧
      s1.msgJoined = (post { stampedState with delayedSending := some 27000 }).msgJoined ∧
      s1.initMsg = (post { stampedState with delayedSending := some 27000 }).initMsg ∧
      s1.trackerData = (post { stampedState with delayedSending := some 27000 }).trackerData ∧
      s1.delayedSending = delayedSending_start (idleWake 25000).now
        (delayedSending_stop
          (post { stampedState with delayedSending := some 27000 }).delayedSending) ∧
      s1.delayedSending = some ((idleWake 25000).now + 10000) :=
  ⟨by decide,
   busy_step (post { stampedState with delayedSending := some 27000 }) (idleWake 25000)
     rfl rfl rfl (by decide)⟩

/-! ## Claim C13: the pass without a join -/

/-- C13: in every state in which the token is held and the join status is not `LMH_SET`,
one pass through `loop` calls neither `pollGPS` nor `sendLoRaFrame`, does not start the
retry timer, and leaves `lastPosSend`, `msgJoined`, `initMsg` and `trackerData` as they
were. -/
theorem not_joined_noop (s : State) (w : Wake) (lmh_join_status LMH_SET : Nat)
    (ht : s.loopEnable = true) (hs : lmh_join_status ≠ LMH_SET)
    (hw : w.joined = lmhJoined lmh_join_status LMH_SET) :
    ∃ s1 acts, loop s w = some (s1, acts) ∧
      acts = [Action.notJoined] ∧ polls acts = false ∧ sends acts = false ∧
      s1.delayedSending = s.delayedSending ∧
      s1.lastPosSend = s.lastPosSend ∧ s1.msgJoined = s.msgJoined ∧
      s1.initMsg = s.initMsg ∧ s1.trackerData = s.trackerData := by
  have hj : w.joined = false := by rw [hw]; simp [lmhJoined, hs]
  exact ⟨{ s with loopEnable := false }, [Action.notJoined], loop_eq_not_joined s w ht hj,
    rfl, rfl, rfl, rfl, rfl, rfl, rfl, rfl⟩

/-- Witness of `not_joined_noop`: the state after `setup` with a running retry timer, join
status 2 where `LMH_SET` is 1. -/
theorem not_joined_noop_witness :
    ((post { boot with delayedSending := some 27000 }).loopEnable = true ∧ (2 : Nat) ≠ 1 ∧
      ({ idleWake 25000 with joined := false } : Wake).joined = lmhJoined 2 1) ∧
    ∃ s1 acts,
      loop (post { boot with delayedSending := some 27000 })
        { idleWake 25000 with joined := false } = some (s1, acts) ∧
      acts = [Action.notJoined] ∧ polls acts = false ∧ sends acts = false ∧
      s1.delayedSending = (post { boot with delayedSending := some 27000 }).delayedSending ∧
      s1.lastPosSend = (post { boot with delayedSending := some 27000 }).lastPosSend ∧
      s1.msgJoined = (post { boot with delayedSending := some 27000 }).msgJoined ∧
      s1.initMsg = (post { boot with delayedSending := some 27000 }).initMsg ∧
      s1.trackerData = (post { boot with delayedSending := some 27000 }).trackerData :=
  ⟨by decide,
   not_joined_noop (post { boot with delayedSending := some 27000 })
     { idleWake 25000 with joined := false } 2 1 rfl (by decide) rfl⟩

/-! ## Claim C12: the first joined pass -/

/-- C14: for every `n ≥ 1` and every `n` producers that each give the semaphore (motion
interrupt, retry timer, periodic timer past its threshold, class confirmation), the
state after them is the state after a single post: the token is present once. The pass
through `loop` that follows handles the wake (it returns when its GPS window settles),
ends without the token, and the next pass, with no further post, finds no token and
handles nothing; in particular for the five posts of `fivePosts`. -/
theorem wake_coalescing (s : State) (n : Nat) (ps : List Producer)
    (hn : 1 ≤ n) (hlen : ps.length = n) (hall : ∀ p ∈ ps, p.gives s = true) :
    fireAll s ps = post s ∧ (fireAll s ps).loopEnable = true ∧
    (∀ w, settles (w.gps.start : Int) w.gps.samples = true →
      ∃ r, loop (fireAll s ps) w = some r) ∧
    (∀ w s1 acts, loop (fireAll s ps) w = some (s1, acts) →
      handled acts = true ∧ s1.loopEnable = false ∧
      ∀ w2, loop s1 w2 = some (s1, []) ∧ handled ([] : List Action) = false) ∧
    fireAll s (List.replicate 5 Producer.accInt) = post s := by
  have hany : ps.any (fun p => p.gives s) = true := by
    cases ps with
    | nil => simp at hlen; omega
    | cons p rest =>
      simp only [List.any_cons, Bool.or_eq_true]
      exact Or.inl (hall p (List.mem_cons_self _ _))
  have heq : fireAll s ps = post s := by
    rw [fireAll_eq, hany]
    simp [post]
  refine ⟨heq, by rw [heq]; rfl, fun w hw => loop_settles _ w hw, ?_, ?_⟩
  · intro w s1 acts h
    have htok := (loop_token (fireAll s ps) w s1 acts h).1 (by rw [heq]; rfl)
    exact ⟨htok.1, htok.2, fun w2 => ⟨loop_eq_no_token s1 w2 htok.2, rfl⟩⟩
  · rw [fireAll_eq]
    simp [post, Producer.gives, List.replicate]

/-- Witness of `wake_coalescing`: five posts by all four producers on the state stamped
at 20000. -/
theorem wake_coalescing_witness :
    ((1 : Nat) ≤ 5 ∧ fivePosts.length = 5 ∧ ∀ p ∈ fivePosts, p.gives stampedState = true) ∧
    (fireAll stampedState fivePosts = post stampedState ∧
    (fireAll stampedState fivePosts).loopEnable = true ∧
    (∀ w, settles (w.gps.start : Int) w.gps.samples = true →
      ∃ r, loop (fireAll stampedState fivePosts) w = some r) ∧
    (∀ w s1 acts, loop (fireAll stampedState fivePosts) w = some (s1, acts) →
      handled acts = true ∧ s1.loopEnable = false ∧
      ∀ w2, loop s1 w2 = some (s1, []) ∧ handled ([] : List Action) = false) ∧
    fireAll stampedState (List.replicate 5 Producer.accInt) = post stampedState) :=
  ⟨by decide, wake_coalescing stampedState 5 fivePosts (by decide) rfl (by decide)⟩

/-! ## Claim C15: the battery percentage -/

/-- The `uint8_t` conversion of a rational lying between `k` and `k + 1`, for `k < 256`. -/
theorem truncU8_eq (x : ℚ) (k : Nat) (hk : k < 256) (h1 : (k : ℚ) ≤ x) (h2 : x < (k : ℚ) + 1) :
    truncU8 x = k := by
  have hfl : Rat.floor x = ⌊x⌋ := rfl
  have hk2 : ⌊x⌋ = (k : Int) := by
    rw [Int.floor_eq_iff]
    exact ⟨by exact_mod_cast h1, by exact_mod_cast h2⟩
  simp only [truncU8, hfl, hk2, Int.toNat_ofNat]
  omega

/-- The `uint8_t` conversion of a rational below `k + 1` is at most `k`. -/
theorem truncU8_le (x : ℚ) (k : Nat) (h : x < (k : ℚ) + 1) : truncU8 x ≤ k := by
  have hfl : Rat.floor x = ⌊x⌋ := rfl
  have hlt : ⌊x⌋ < (k : Int) + 1 := by
    rw [Int.floor_lt]
    exact_mod_cast h
  simp only [truncU8, hfl]
  omega

/-- Up to the raw reading 3319 (4205.47 mV) the value of `readBatt` is at most 100. -/
theorem readBatt_le_100 (raw : Nat) (h : raw ≤ 3319) : readBatt raw ≤ 100 := by
  have hq : (raw : ℚ) ≤ 3319 := by exact_mod_cast h
  have hq0 : (0 : ℚ) ≤ (raw : ℚ) := by exact_mod_cast Nat.zero_le raw
  simp only [readBatt, mvToPercent]
  split
  · exact Nat.zero_le _
  · split
    · rename_i h1 h2
      apply truncU8_le
      linarith
    · apply truncU8_le
      simp only [readVBAT, REAL_VBAT_MV_PER_LSB, VBAT_DIVIDER_COMP, VBAT_MV_PER_LSB]
      norm_num
      linarith

/-- C15: evaluation of `readBatt` in exact rational arithmetic. The raw reading 3319
(4205.47 mV) gives 100, the reading 3320 (4206.74 mV) gives 101, the reading 3400
(4308.11 mV) gives 116 and the largest reading 4095 (5188.73 mV) gives 248: from 3320 on
the value is above 100. A pass through `loop` that reads 116 from `readBatt` stores 116
in the `batt` byte of the record. -/
theorem readBatt_above_100 :
    readBatt 3319 = 100 ∧ readBatt 3320 = 101 ∧ readBatt 3400 = 116 ∧ readBatt 4095 = 248 ∧
    (loop (post boot) { idleWake 5000 with batt := 116 }).map (fun r => r.1.trackerData.batt)
      = some 116 := by
  refine ⟨?_, ?_, ?_, ?_, by decide⟩
  · have h : mvToPercent (readVBAT 3319) = truncU8 (10 + (readVBAT 3319 - 3600) * (15 / 100)) := by
      rw [mvToPercent, if_neg, if_neg] <;>
        norm_num [readVBAT, REAL_VBAT_MV_PER_LSB, VBAT_DIVIDER_COMP, VBAT_MV_PER_LSB]
    rw [readBatt, h]
    apply truncU8_eq _ 100 (by norm_num) <;>
      norm_num [readVBAT, REAL_VBAT_MV_PER_LSB, VBAT_DIVIDER_COMP, VBAT_MV_PER_LSB]
  · have h : mvToPercent (readVBAT 3320) = truncU8 (10 + (readVBAT 3320 - 3600) * (15 / 100)) := by
      rw [mvToPercent, if_neg, if_neg] <;>
        norm_num [readVBAT, REAL_VBAT_MV_PER_LSB, VBAT_DIVIDER_COMP, VBAT_MV_PER_LSB]
    rw [readBatt, h]
    apply truncU8_eq _ 101 (by norm_num) <;>
      norm_num [readVBAT, REAL_VBAT_MV_PER_LSB, VBAT_DIVIDER_COMP, VBAT_MV_PER_LSB]
  · have h : mvToPercent (readVBAT 3400) = truncU8 (10 + (readVBAT 3400 - 3600) * (15 / 100)) := by
      rw [mvToPercent, if_neg, if_neg] <;>
        norm_num [readVBAT, REAL_VBAT_MV_PER_LSB, VBAT_DIVIDER_COMP, VBAT_MV_PER_LSB]
    rw [readBatt, h]
    apply truncU8_eq _ 116 (by norm_num) <;>
      norm_num [readVBAT, REAL_VBAT_MV_PER_LSB, VBAT_DIVIDER_COMP, VBAT_MV_PER_LSB]
  · have h : mvToPercent (readVBAT 4095) = truncU8 (10 + (readVBAT 4095 - 3600) * (15 / 100)) := by
      rw [mvToPercent, if_neg, if_neg] <;>
        norm_num [readVBAT, REAL_VBAT_MV_PER_LSB, VBAT_DIVIDER_COMP, VBAT_MV_PER_LSB]
    rw [readBatt, h]
    apply truncU8_eq _ 248 (by norm_num) <;>
      norm_num [readVBAT, REAL_VBAT_MV_PER_LSB, VBAT_DIVIDER_COMP, VBAT_MV_PER_LSB]

/-! ## Claim C16: the display line buffer -/

/-- The quotient `NUM_OF_LINES` is 5. -/
theorem NUM_OF_LINES_eq : NUM_OF_LINES = 5 := by decide

/-- One call of `dispAddLine` on a buffer of `NUM_OF_LINES + 1` rows with
`currentLine ≤ NUM_OF_LINES` stays inside the buffer and keeps both properties. -/
theorem dispAddLine_ok (d : Display) (L : List Nat)
    (hlen : d.buffer.length = NUM_OF_LINES + 1) (hcl : d.currentLine ≤ NUM_OF_LINES) :
    ∃ d1, dispAddLine d L = some d1 ∧ d1.buffer.length = NUM_OF_LINES + 1 ∧
      d1.currentLine ≤ NUM_OF_LINES := by
  rcases d with ⟨buf, cl⟩
  rw [NUM_OF_LINES_eq] at hlen hcl
  simp only at hlen hcl
  rcases buf with _ | ⟨r0, _ | ⟨r1, _ | ⟨r2, _ | ⟨r3, _ | ⟨r4, _ | ⟨r5, _ | ⟨r6, rest⟩⟩⟩⟩⟩⟩⟩ <;>
    simp only [List.length_cons, List.length_nil] at hlen <;> try omega
  interval_cases cl <;>
    simp [dispAddLine, shiftLoop, NUM_OF_LINES_eq]

/-- Every sequence of calls of `dispAddLine` from such a state stays inside the buffer and
ends in such a state. -/
theorem dispAddLines_ok (lines : List (List Nat)) (d : Display)
    (hlen : d.buffer.length = NUM_OF_LINES + 1) (hcl : d.currentLine ≤ NUM_OF_LINES) :
    ∃ dn, dispAddLines d lines = some dn ∧ dn.buffer.length = NUM_OF_LINES + 1 ∧
      dn.currentLine ≤ NUM_OF_LINES := by
  induction lines generalizing d with
  | nil => exact ⟨d, rfl, hlen, hcl⟩
  | cons L rest ih =>
    obtain ⟨d1, h1, hlen1, hcl1⟩ := dispAddLine_ok d L hlen hcl
    obtain ⟨dn, hn, hlenn, hcln⟩ := ih d1 hlen1 hcl1
    exact ⟨dn, by simp only [dispAddLines, h1, hn], hlenn, hcln⟩

/-- C16: on a buffer of `NUM_OF_LINES + 1` = 6 rows with `currentLine ≤ NUM_OF_LINES` = 5
(as after `Display.init`), a call of `dispAddLine` uses only row indices inside the buffer
and keeps `currentLine ≤ NUM_OF_LINES`, and so does every sequence of calls. When
`NUM_OF_LINES` lines are shown, the lines shown afterwards are the previous ones without
the first, in the same order, followed by the first 31 bytes of the new line; when fewer
are shown, they are the previous ones followed by the first 31 bytes of the new line. -/
theorem dispAddLine_drops_oldest (d : Display) (L : List Nat)
    (hlen : d.buffer.length = NUM_OF_LINES + 1) (hcl : d.currentLine ≤ NUM_OF_LINES) :
    ∃ d1 shown, dispAddLine d L = some d1 ∧ dispShow d = some shown ∧
      d1.buffer.length = NUM_OF_LINES + 1 ∧ d1.currentLine ≤ NUM_OF_LINES ∧
      shown.length = d.currentLine ∧
      (d.currentLine = NUM_OF_LINES →
        d1.currentLine = NUM_OF_LINES ∧ dispShow d1 = some (shown.drop 1 ++ [L.take 31])) ∧
      (d.currentLine < NUM_OF_LINES →
        d1.currentLine = d.currentLine + 1 ∧ dispShow d1 = some (shown ++ [L.take 31])) ∧
      (∀ lines, ∃ dn, dispAddLines d lines = some dn ∧
        dn.buffer.length = NUM_OF_LINES + 1 ∧ dn.currentLine ≤ NUM_OF_LINES) ∧
      (∀ lines, ∃ dn, dispAddLines Display.init lines = some dn ∧
        dn.buffer.length = NUM_OF_LINES + 1 ∧ dn.currentLine ≤ NUM_OF_LINES) := by
  have hseq := fun lines => dispAddLines_ok lines d hlen hcl
  have hinit := fun lines => dispAddLines_ok lines Display.init (by decide) (by decide)
  rcases d with ⟨buf, cl⟩
  rw [NUM_OF_LINES_eq] at hlen hcl
  simp only at hlen hcl
  rcases buf with _ | ⟨r0, _ | ⟨r1, _ | ⟨r2, _ | ⟨r3, _ | ⟨r4, _ | ⟨r5, _ | ⟨r6, rest⟩⟩⟩⟩⟩⟩⟩ <;>
    simp only [List.length_cons, List.length_nil] at hlen <;> try omega
  simp only [NUM_OF_LINES_eq] at hseq hinit ⊢
  interval_cases cl
  · exact ⟨⟨[L.take 31, r1, r2, r3, r4, r5], 1⟩, [], rfl, rfl, rfl, by simp, rfl,
      fun h => absurd h (by simp), fun _ => ⟨rfl, rfl⟩, hseq, hinit⟩
  · exact ⟨⟨[r0, L.take 31, r2, r3, r4, r5], 2⟩, [r0], rfl, rfl, rfl, by simp, rfl,
      fun h => absurd h (by simp), fun _ => ⟨rfl, rfl⟩, hseq, hinit⟩
  · exact ⟨⟨[r0, r1, L.take 31, r3, r4, r5], 3⟩, [r0, r1], rfl, rfl, rfl, by simp, rfl,
      fun h => absurd h (by simp), fun _ => ⟨rfl, rfl⟩, hseq, hinit⟩
  · exact ⟨⟨[r0, r1, r2, L.take 31, r4, r5], 4⟩, [r0, r1, r2], rfl, rfl, rfl, by simp, rfl,
      fun h => absurd h (by simp), fun _ => ⟨rfl, rfl⟩, hseq, hinit⟩
  · exact ⟨⟨[r0, r1, r2, r3, L.take 31, r5], 5⟩, [r0, r1, r2, r3], rfl, rfl, rfl, by simp, rfl,
      fun h => absurd h (by simp), fun _ => ⟨rfl, rfl⟩, hseq, hinit⟩
  · exact ⟨⟨[r1, r2, r3, r4, L.take 31, r5], 5⟩, [r0, r1, r2, r3, r4], rfl, rfl, rfl, by simp, rfl,
      fun _ => ⟨rfl, rfl⟩, fun h => absurd h (by simp), hseq, hinit⟩

/-- Witness of `dispAddLine_drops_oldest`: a full display showing lines 1 to 5. -/
theorem dispAddLine_drops_oldest_witness :
    (fullDisplay.buffer.length = NUM_OF_LINES + 1 ∧ fullDisplay.currentLine ≤ NUM_OF_LINES) ∧
    ∃ d1 shown, dispAddLine fullDisplay [6] = some d1 ∧ dispShow fullDisplay = some shown ∧
      d1.buffer.length = NUM_OF_LINES + 1 ∧ d1.currentLine ≤ NUM_OF_LINES ∧
      shown.length = fullDisplay.currentLine ∧
      (fullDisplay.currentLine = NUM_OF_LINES →
        d1.currentLine = NUM_OF_LINES ∧
        dispShow d1 = some (shown.drop 1 ++ [([6] : List Nat).take 31])) ∧
      (fullDisplay.currentLine < NUM_OF_LINES →
        d1.currentLine = fullDisplay.currentLine + 1 ∧
        dispShow d1 = some (shown ++ [([6] : List Nat).take 31])) ∧
      (∀ lines, ∃ dn, dispAddLines fullDisplay lines = some dn ∧
        dn.buffer.length = NUM_OF_LINES + 1 ∧ dn.currentLine ≤ NUM_OF_LINES) ∧
      (∀ lines, ∃ dn, dispAddLines Display.init lines = some dn ∧
        dn.buffer.length = NUM_OF_LINES + 1 ∧ dn.currentLine ≤ NUM_OF_LINES) :=
  ⟨by decide, dispAddLine_drops_oldest fullDisplay [6] (by decide) (by decide)⟩

/-! ## Claim C17: the downlink dump -/

/-- The dump loop succeeds when all its indices are inside the bytes, and prints them. -/
theorem dumpLoop_inside (buffer : List Nat) :
    ∀ (steps i : Nat), i + steps ≤ buffer.length →
      dumpLoop buffer steps i = some ((buffer.drop i).take steps) := by
  intro steps
  induction steps with
  | zero => intro i _; simp [dumpLoop]
  | succ k ih =>
    intro i h
    have hi : i < buffer.length := by omega
    rw [dumpLoop, ih (i + 1) (by omega), List.getElem?_eq_getElem hi]
    simp only
    rw [List.drop_eq_getElem_cons hi, List.take_succ_cons]

/-- The dump loop fails when its last index is outside the bytes. -/
theorem dumpLoop_outside (buffer : List Nat) :
    ∀ (steps i : Nat), 0 < steps → buffer.length < i + steps →
      dumpLoop buffer steps i = none := by
  intro steps
  induction steps with
  | zero => intro i h; omega
  | succ k ih =>
    intro i _ h
    rw [dumpLoop]
    by_cases hi : i < buffer.length
    · have hk : 0 < k := by omega
      rw [ih (i + 1) hk (by omega), List.getElem?_eq_getElem hi]
    · rw [List.getElem?_eq_none (by omega)]

/-- C17: evaluation of the dump of `lorawan_rx_handler` on the application port (taken as
2) for a payload of any length `n`. The loop runs for `i = 0, ..., n`: when only the `n`
payload bytes exist the read at index `n` is outside them, and when more bytes follow in
memory the byte after the payload is printed as well. -/
theorem rx_dump_reads_index_n (payload : List Nat) (extra : Nat) (rest : List Nat)
    (rssi snr : Int) :
    lorawan_rx_handler 2 ⟨payload, payload.length, 2, rssi, snr⟩ = none ∧
    lorawan_rx_handler 2 ⟨payload ++ extra :: rest, payload.length, 2, rssi, snr⟩
      = some (payload ++ [extra]) ∧
    lorawan_rx_handler 2 ⟨[], 0, 2, rssi, snr⟩ = none := by
  refine ⟨?_, ?_, by simp [lorawan_rx_handler, dumpLoop]⟩
  · have h := dumpLoop_outside payload (payload.length + 1) 0 (by omega) (by omega)
    simp [lorawan_rx_handler, h]
  · have h := dumpLoop_inside (payload ++ extra :: rest) (payload.length + 1) 0 (by simp)
    simp [lorawan_rx_handler, h, List.take_append_eq_append_take]

end Tracker
